import Mathlib

/-!
Shallow embedding of `src/message_queue.py` (BlackRoad-OS message broker).

The SQLite tables `exchanges`, `queues`, `bindings`, `messages` are modelled
as lists kept in insertion (rowid) order; `SELECT ... fetchone()` without an
`ORDER BY` is `List.find?` (first row in insertion order), a filtering
`SELECT` is `List.filter`, `UPDATE ... WHERE` is `List.map` guarded by the
`WHERE` condition, `DELETE ... WHERE` is `List.filter` with the negated
condition, and `INSERT` appends.  `uuid.uuid4()` is modelled by a fresh-id
counter producing pairwise-distinct non-empty strings, and
`datetime.now()` by an injectable clock value carried in the state (the
`TEXT` timestamp columns are modelled as `Nat`).  `str(dict)` argument /
header serialisation is modelled by keeping the serialised `String` itself.
-/

namespace MessageQueue

/-- Row of the `queues` table (and the `Queue` dataclass). -/
structure Queue where
  id : String
  name : String
  vhost : String
  durable : Bool
  exclusive : Bool
  auto_delete : Bool
  arguments : String
  message_count : Int
  consumer_count : Int
  created_at : Nat
  last_message_at : Option Nat
deriving DecidableEq, Repr

/-- Row of the `messages` table (and the `Message` dataclass). -/
structure Message where
  id : String
  queue_id : String
  exchange : String
  routing_key : String
  body : String
  headers : String
  priority : Int
  delivery_mode : Int
  content_type : String
  published_at : Nat
  acked_at : Option Nat
  nacked_at : Option Nat
  attempts : Nat
deriving DecidableEq, Repr

/-- Row of the `exchanges` table (and the `Exchange` dataclass). -/
structure Exchange where
  id : String
  name : String
  type : String
  vhost : String
  durable : Bool
  auto_delete : Bool
deriving DecidableEq, Repr

/-- Row of the `bindings` table. -/
structure Binding where
  queue_id : String
  exchange_id : String
  routing_key : String
  vhost : String
deriving DecidableEq, Repr

/-- The broker's database plus the id generator and the clock. -/
structure BrokerState where
  exchanges : List Exchange
  queues : List Queue
  bindings : List Binding
  messages : List Message
  nextId : Nat
  now : Nat
deriving DecidableEq, Repr

/-- Model of `uuid.uuid4()`: the n-th generated id (non-empty, injective). -/
def genId (n : Nat) : String := "id-" ++ toString n

/-- A freshly initialised broker (empty tables, as `_init_db` creates them). -/
def initState : BrokerState := ⟨[], [], [], [], 0, 0⟩

/-- `str({})`: the serialisation of the empty Python dict. -/
def emptyArgs : String := "\x7b\x7d"

/-- The `WHERE name = ? AND vhost = ?` condition on `queues`. -/
def queueMatch (name vhost : String) (q : Queue) : Bool :=
  q.name == name && q.vhost == vhost

/-- The `WHERE name = ? AND vhost = ?` condition on `exchanges`. -/
def exchangeMatch (name vhost : String) (e : Exchange) : Bool :=
  e.name == name && e.vhost == vhost

/-- `MessageBroker.declare_queue`: reuses the stored id when a row with the
same (name, vhost) exists, otherwise inserts a fresh row; either way it
returns a `Queue` value rebuilt from the call's own parameters with
`message_count = 0`, `consumer_count = 0` and `created_at = now`. -/
def declare_queue (st : BrokerState) (name vhost : String)
    (durable exclusive auto_delete : Bool) (arguments : String) :
    Queue × BrokerState :=
  match st.queues.find? (queueMatch name vhost) with
  | some r =>
      (⟨r.id, name, vhost, durable, exclusive, auto_delete, arguments,
        0, 0, st.now, none⟩, st)
  | none =>
      let qid := genId st.nextId
      (⟨qid, name, vhost, durable, exclusive, auto_delete, arguments,
        0, 0, st.now, none⟩,
       { st with
          queues := st.queues ++
            [⟨qid, name, vhost, durable, exclusive, auto_delete, arguments,
              0, 0, st.now, none⟩],
          nextId := st.nextId + 1 })

/-- `MessageBroker.declare_exchange`: generates a fresh id, performs
`INSERT OR IGNORE` keyed on the `UNIQUE(name, vhost)` constraint, and
returns an `Exchange` built from the fresh id and the call's parameters
whether or not the insert was ignored. -/
def declare_exchange (st : BrokerState) (name ty vhost : String)
    (durable auto_delete : Bool) : Exchange × BrokerState :=
  let eid := genId st.nextId
  (⟨eid, name, ty, vhost, durable, auto_delete⟩,
   { st with
      exchanges :=
        if st.exchanges.any (exchangeMatch name vhost) then st.exchanges
        else st.exchanges ++ [⟨eid, name, ty, vhost, durable, auto_delete⟩],
      nextId := st.nextId + 1 })

/-- `MessageBroker.bind_queue`: looks up queue and exchange by (name, vhost);
if both exist, `INSERT OR IGNORE` of the binding keyed on the primary key
`(queue_id, exchange_id, routing_key)` and `True`, otherwise `False`. -/
def bind_queue (st : BrokerState)
    (queue_name exchange_name routing_key vhost : String) :
    Bool × BrokerState :=
  match st.queues.find? (queueMatch queue_name vhost),
        st.exchanges.find? (exchangeMatch exchange_name vhost) with
  | some q, some e =>
      (true,
       { st with
          bindings :=
            if st.bindings.any (fun b =>
                b.queue_id == q.id && b.exchange_id == e.id &&
                b.routing_key == routing_key) then
              st.bindings
            else st.bindings ++ [⟨q.id, e.id, routing_key, vhost⟩] })
  | _, _ => (false, st)

/-- `MessageBroker.publish`: returns `""` if the exchange does not exist;
otherwise inserts a single `messages` row with `queue_id = ""` (the literal
empty string the source passes), `delivery_mode = 2`, `attempts = 0` and no
ack/nack timestamps, and returns the generated message id. -/
def publish (st : BrokerState) (exchange routing_key : String)
    (body : String) (headers : String) (priority : Int)
    (content_type : String) (vhost : String) : String × BrokerState :=
  match st.exchanges.find? (exchangeMatch exchange vhost) with
  | none => ("", st)
  | some _ =>
      let mid := genId st.nextId
      (mid,
       { st with
          messages := st.messages ++
            [⟨mid, "", exchange, routing_key, body, headers, priority, 2,
              content_type, st.now, none, none, 0⟩],
          nextId := st.nextId + 1 })

/-- The `acked_at IS NULL AND nacked_at IS NULL` condition on `messages`. -/
def isReady (m : Message) : Bool := m.acked_at.isNone && m.nacked_at.isNone

/-- `MessageBroker.consume`: queue looked up by name only; selects up to `n`
rows with matching `queue_id` and both timestamps null, in rowid (insertion)
order with no `ORDER BY`; when `ack` is true each selected row gets
`acked_at` set, and the returned messages are built from the rows as
selected (before the update). -/
def consume (st : BrokerState) (queue_name : String) (n : Nat)
    (ack : Bool) : List Message × BrokerState :=
  match st.queues.find? (fun q => q.name == queue_name) with
  | none => ([], st)
  | some q =>
      let rows :=
        (st.messages.filter (fun m => m.queue_id == q.id && isReady m)).take n
      (rows,
       { st with
          messages :=
            if ack then
              st.messages.map (fun m =>
                if rows.any (fun r => r.id == m.id) then
                  { m with acked_at := some st.now }
                else m)
            else st.messages })

/-- `MessageBroker.nack`: a single `UPDATE ... WHERE id = ?` setting
`nacked_at` and incrementing `attempts`; the `requeue` parameter is never
read and the function returns `True` unconditionally. -/
def nack (st : BrokerState) (message_id : String) (requeue : Bool) :
    Bool × BrokerState :=
  (true,
   { st with
      messages := st.messages.map (fun m =>
        if m.id == message_id then
          { m with nacked_at := some st.now, attempts := m.attempts + 1 }
        else m) })

/-- `MessageBroker.purge_queue`: queue looked up by name only; deletes every
`messages` row with that `queue_id` and returns `cursor.rowcount`, the
number of rows deleted. -/
def purge_queue (st : BrokerState) (queue_name : String) :
    Nat × BrokerState :=
  match st.queues.find? (fun q => q.name == queue_name) with
  | none => (0, st)
  | some q =>
      ((st.messages.filter (fun m => m.queue_id == q.id)).length,
       { st with
          messages := st.messages.filter (fun m => !(m.queue_id == q.id)) })

/-- The f-string the source stores as the queue's arguments when a
dead-letter queue is configured. -/
def dlqArgs (dlq_name : String) : String :=
  "\x7b\"x-dead-letter-queue\": \"" ++ dlq_name ++ "\"\x7d"

/-- `MessageBroker.dead_letter_queue`: first declares the DLQ (with default
parameters, creating it if absent), then looks up the source queue by name;
if found, overwrites its `arguments` column with the dead-letter map and
returns `True`, otherwise returns `False` (with the DLQ already declared). -/
def dead_letter_queue (st : BrokerState) (queue_name dlq_name : String) :
    Bool × BrokerState :=
  let st1 := (declare_queue st dlq_name "/" true false false emptyArgs).2
  match st1.queues.find? (fun q => q.name == queue_name) with
  | some q =>
      (true,
       { st1 with
          queues := st1.queues.map (fun r =>
            if r.id == q.id then { r with arguments := dlqArgs dlq_name }
            else r) })
  | none => (false, st1)

/-- `MessageBroker.get_pending_dlq`: queue looked up by name; returns the
rows with that `queue_id` and `attempts >= 3` (no ordering clause). -/
def get_pending_dlq (st : BrokerState) (dlq_name : String) : List Message :=
  match st.queues.find? (fun q => q.name == dlq_name) with
  | none => []
  | some q =>
      st.messages.filter (fun m => m.queue_id == q.id && decide (3 ≤ m.attempts))

end MessageQueue

namespace MessageQueue

/-! Concrete broker states used by the claim theorems below.  `stA1`–`pubA`
is a state reached through the broker API alone (fanout exchange with two
bound queues, then one publish); the other states are explicit `messages` /
`queues` table contents, exercising the operations on queues that hold
messages. -/

def stA1 : BrokerState := (declare_exchange initState "ex" "fanout" "/" true false).2

def stA2 : BrokerState := (declare_queue stA1 "q1" "/" true false false emptyArgs).2

def stA3 : BrokerState := (declare_queue stA2 "q2" "/" true false false emptyArgs).2

def stA4 : BrokerState := (bind_queue stA3 "q1" "ex" "" "/").2

def stA5 : BrokerState := (bind_queue stA4 "q2" "ex" "" "/").2

def pubA : String × BrokerState := publish stA5 "ex" "rk" "body" emptyArgs 0 "text/plain" "/"

/-- A queue named `q` (id `Q`) holding one ready message `m1` with
`attempts = 0`; the clock reads 7. -/
def stN : BrokerState :=
  ⟨[], [⟨"Q", "q", "/", true, false, false, emptyArgs, 0, 0, 0, none⟩], [],
   [⟨"m1", "Q", "ex", "rk", "b", emptyArgs, 0, 2, "text/plain", 0, none, none, 0⟩], 0, 7⟩

/-- The one message of `stN`. -/
def mN : Message :=
  ⟨"m1", "Q", "ex", "rk", "b", emptyArgs, 0, 2, "text/plain", 0, none, none, 0⟩

/-- A queue named `q` (id `Q`) holding one ready message `m1` that has
already been nacked twice (`attempts = 2`). -/
def stD : BrokerState :=
  ⟨[], [⟨"Q", "q", "/", true, false, false, emptyArgs, 0, 0, 0, none⟩], [],
   [⟨"m1", "Q", "ex", "rk", "b", emptyArgs, 0, 2, "text/plain", 0, none, none, 2⟩], 5, 0⟩

/-- A queue named `q` (id `Q`) holding three ready messages published in
order with priorities 1, 5, 3. -/
def stOrd : BrokerState :=
  ⟨[], [⟨"Q", "q", "/", true, false, false, emptyArgs, 0, 0, 0, none⟩], [],
   [⟨"m1", "Q", "ex", "rk", "b", emptyArgs, 1, 2, "text/plain", 0, none, none, 0⟩,
    ⟨"m2", "Q", "ex", "rk", "b", emptyArgs, 5, 2, "text/plain", 1, none, none, 0⟩,
    ⟨"m3", "Q", "ex", "rk", "b", emptyArgs, 3, 2, "text/plain", 2, none, none, 0⟩], 0, 9⟩

/-- The t-th of seven identical ready messages of queue id `Q`. -/
def mP (i : String) (t : Nat) : Message :=
  ⟨i, "Q", "ex", "rk", "b", emptyArgs, 0, 2, "text/plain", t, none, none, 0⟩

/-- A queue named `q` (id `Q`) holding seven ready messages. -/
def stP : BrokerState :=
  ⟨[], [⟨"Q", "q", "/", true, false, false, emptyArgs, 0, 0, 0, none⟩], [],
   [mP "a" 0, mP "b" 1, mP "c" 2, mP "d" 3, mP "e" 4, mP "f" 5, mP "g" 6], 0, 9⟩

/-- Claim C1: a publish to an exchange whose bindings match two queues is
claimed to create two message records, one per matching queue, each with
`queue_id` referring to its queue.  The code instead inserts exactly one
record whose `queue_id` is the empty string, so no matching queue receives
a copy: with a fanout exchange bound to `q1` and `q2` (two bindings), the
publish succeeds (non-empty id) yet the message table holds one record with
`queue_id = ""` and `attempts = 0`, and zero records per declared queue. -/
theorem publish_creates_no_queue_copies :
    (stA5.bindings.length = 2) ∧
    (pubA.1 ≠ "") ∧
    (pubA.2.messages.map (fun m => (m.queue_id, m.attempts)) = [("", 0)]) ∧
    (∀ q ∈ pubA.2.queues,
      (pubA.2.messages.filter (fun m => m.queue_id == q.id)).length = 0) := by
  decide

/-- Claim C2: nacking a ready message with `requeue = true` and
`attempts = 0 < 3` is claimed to return it to the ready state so that a
later consume redelivers it.  In the code `nack` sets `nacked_at`, and
`consume` filters on `nacked_at IS NULL`, so the message is never returned
again: in `stN` the message is consumable before the nack, the nack returns
`True` and increments `attempts` to 1, and every consume afterwards (with
or without auto-ack) returns the empty list. -/
theorem nack_prevents_redelivery :
    ((consume stN "q" 1 false).1.map (fun m => m.id) = ["m1"]) ∧
    ((nack stN "m1" true).1 = true) ∧
    ((nack stN "m1" true).2.messages.map (fun m => (m.attempts, m.nacked_at)) =
      [(1, some 7)]) ∧
    ((consume (nack stN "m1" true).2 "q" 5 false).1 = []) ∧
    ((consume (nack stN "m1" true).2 "q" 5 true).1 = []) := by
  decide

/-- Claim C3: the third nack of a message in a queue with a configured DLQ
is claimed to move the record into the DLQ.  The code's `nack` only updates
`nacked_at` and `attempts` in place: after `dead_letter_queue stD "q" "dlq"`
(which does record the DLQ name in `q`'s arguments) and a third nack, the
message still has its original `queue_id = "Q"` with `attempts = 3`, and
the DLQ contains nothing (`get_pending_dlq` returns `[]` because no record
carries the DLQ's queue id). -/
theorem third_nack_not_dead_lettered :
    ((dead_letter_queue stD "q" "dlq").1 = true) ∧
    (∃ r ∈ (dead_letter_queue stD "q" "dlq").2.queues,
      r.name = "q" ∧ r.arguments = dlqArgs "dlq") ∧
    ((nack (dead_letter_queue stD "q" "dlq").2 "m1" true).2.messages.map
        (fun m => (m.queue_id, m.attempts)) = [("Q", 3)]) ∧
    (get_pending_dlq (nack (dead_letter_queue stD "q" "dlq").2 "m1" true).2 "dlq"
      = []) := by
  decide

/-- Claim C4 counterexample: with three ready messages of priorities
1, 5, 3 in publish order, `consume` is claimed to return them as
[5, 3, 1]; the code's `SELECT` has no `ORDER BY`, so they come back in
insertion order [1, 5, 3]. -/
theorem consume_ignores_priority :
    ((consume stOrd "q" 3 true).1.map (fun m => m.priority) = [1, 5, 3]) ∧
    ((consume stOrd "q" 3 true).1.map (fun m => m.priority) ≠ [5, 3, 1]) := by
  decide

/-- Claim C5 counterexample: on a queue holding 7 messages of which 2 have
just been handed to a consumer without auto-ack (delivered but
unacknowledged — the `DELETE` knows nothing of delivery state), `purge` is
claimed to return 5 and leave the 2 delivered messages intact; the code
deletes every row with the queue's id and returns 7, leaving nothing. -/
theorem purge_deletes_delivered_messages :
    ((consume stP "q" 2 false).1.length = 2) ∧
    ((consume stP "q" 2 false).2 = stP) ∧
    ((purge_queue stP "q").1 = 7) ∧
    ((purge_queue stP "q").2.messages = []) := by
  decide

end MessageQueue

namespace MessageQueue

/-- Claim C4 (amended): `consume` returns up to `n` not-yet-finalized
messages of the queue in message-table insertion order — a sublist of the
stored table, with no priority sorting (the `SELECT` has no `ORDER BY`). -/
theorem consume_returns_table_order (st : BrokerState) (qn : String)
    (n : Nat) (a : Bool) :
    (consume st qn n a).1.Sublist st.messages ∧
    (∀ m ∈ (consume st qn n a).1, isReady m = true) ∧
    (consume st qn n a).1.length ≤ n := by
  cases h : st.queues.find? (fun q => q.name == qn) with
  | none => simp [consume, h]
  | some q =>
      simp only [consume, h]
      refine ⟨?_, ?_, ?_⟩
      · exact (List.take_sublist _ _).trans (List.filter_sublist _)
      · intro m hm
        have hm' := List.mem_of_mem_take hm
        have h2 := (List.mem_filter.mp hm').2
        simp only [Bool.and_eq_true] at h2
        exact h2.2
      · simp [List.length_take]

/-- Claim C5 (amended): when the queue exists, `purge_queue` deletes every
message record carrying the queue's id — whatever its delivery state — and
returns the count of all of them, leaving messages of other queues and the
queues table untouched. -/
theorem purge_removes_every_queue_message (st : BrokerState) (qn : String)
    (q : Queue) (h : st.queues.find? (fun r => r.name == qn) = some q) :
    ((purge_queue st qn).1 =
      (st.messages.filter (fun m => m.queue_id == q.id)).length) ∧
    (∀ m ∈ (purge_queue st qn).2.messages, m.queue_id ≠ q.id) ∧
    (∀ m ∈ st.messages, m.queue_id ≠ q.id → m ∈ (purge_queue st qn).2.messages) ∧
    ((purge_queue st qn).2.queues = st.queues) := by
  have hp : purge_queue st qn =
      ((st.messages.filter (fun m => m.queue_id == q.id)).length,
       { st with messages := st.messages.filter (fun m => !(m.queue_id == q.id)) }) := by
    simp [purge_queue, h]
  rw [hp]
  refine ⟨rfl, ?_, ?_, rfl⟩
  · intro m hm
    have h2 := (List.mem_filter.mp hm).2
    simpa [beq_iff_eq] using h2
  · intro m hm hne
    exact List.mem_filter.mpr ⟨hm, by simpa [beq_iff_eq] using hne⟩

/-- Claim C5 witness: on the seven-message queue `stP`, the purge count is
the full 7 and the queues table is untouched. -/
theorem purge_removes_every_queue_message_witness :
    ((purge_queue stP "q").1 = 7) ∧
    ((purge_queue stP "q").2.queues = stP.queues) :=
  ⟨((purge_removes_every_queue_message stP "q"
      ⟨"Q", "q", "/", true, false, false, emptyArgs, 0, 0, 0, none⟩
      (by decide)).1).trans (by decide),
   (purge_removes_every_queue_message stP "q"
      ⟨"Q", "q", "/", true, false, false, emptyArgs, 0, 0, 0, none⟩
      (by decide)).2.2.2⟩

/-- Claim C7 counterexample: `stA1` stores exchange `ex` of type `fanout`.
Redeclaring `ex` with the conflicting type `direct` does not fail: it
returns an `Exchange` claiming type `direct` while the stored row keeps
type `fanout`; and redeclaring with identical parameters returns a freshly
generated id, not the stored exchange's identity `genId 0`. -/
theorem declare_exchange_not_idempotent :
    (stA1.exchanges.map (fun e => (e.id, e.type)) = [(genId 0, "fanout")]) ∧
    ((declare_exchange stA1 "ex" "direct" "/" true false).2.exchanges.map
        (fun e => e.type) = ["fanout"]) ∧
    ((declare_exchange stA1 "ex" "direct" "/" true false).1.type = "direct") ∧
    ((declare_exchange stA1 "ex" "fanout" "/" true false).1.id ≠ genId 0) := by
  decide

/-- Claim C7 (amended): declaring an exchange whose (name, vhost) already
exists never fails and never touches the stored row, whatever the type
(`INSERT OR IGNORE`): the stored exchanges are unchanged and the returned
`Exchange` is built from a freshly generated id and the caller's own
parameters, not from the stored row. -/
theorem declare_exchange_conflict_ignored (st : BrokerState)
    (n ty v : String) (d ad : Bool)
    (h : st.exchanges.any (exchangeMatch n v) = true) :
    (declare_exchange st n ty v d ad).2.exchanges = st.exchanges ∧
    (declare_exchange st n ty v d ad).1 =
      ⟨genId st.nextId, n, ty, v, d, ad⟩ := by
  simp [declare_exchange, h]

/-- Claim C7 witness: redeclaring `ex` (stored with type `fanout` in
`stA1`) as a `topic` exchange leaves the table unchanged and returns a
fresh identity. -/
theorem declare_exchange_conflict_ignored_witness :
    (declare_exchange stA1 "ex" "topic" "/" false true).2.exchanges =
      stA1.exchanges ∧
    (declare_exchange stA1 "ex" "topic" "/" false true).1 =
      ⟨genId stA1.nextId, "ex", "topic", "/", false, true⟩ :=
  declare_exchange_conflict_ignored stA1 "ex" "topic" "/" false true (by decide)

/-- Claim C8: `declare_queue` is idempotent: repeating a declaration with
identical parameters returns the very same `Queue` value (same id) and
leaves the state — in particular the queues table — exactly as the first
declaration left it, so no duplicate topology entry is created. -/
theorem declare_queue_idempotent (st : BrokerState) (n v : String)
    (d e ad : Bool) (a : String) :
    declare_queue (declare_queue st n v d e ad a).2 n v d e ad a =
      declare_queue st n v d e ad a := by
  cases h : st.queues.find? (queueMatch n v) with
  | some r => simp [declare_queue, h]
  | none =>
      have hrow : queueMatch n v
          ⟨genId st.nextId, n, v, d, e, ad, a, 0, 0, st.now, none⟩ = true := by
        simp [queueMatch]
      simp [declare_queue, h, List.find?_append, hrow]

/-- Claim C10: `nack` returns `True` for every message id, existing or not;
it never reads `requeue`; when no stored message has the id the state is
unchanged, and every stored message with the id gets `nacked_at` set to the
clock value and `attempts` incremented by exactly 1, all other messages
staying in place. -/
theorem nack_returns_true_and_updates (st : BrokerState) (mid : String)
    (rq rq' : Bool) :
    ((nack st mid rq).1 = true) ∧
    (nack st mid rq = nack st mid rq') ∧
    ((∀ m ∈ st.messages, m.id ≠ mid) → (nack st mid rq).2 = st) ∧
    (∀ m ∈ st.messages, m.id = mid →
      ({ m with nacked_at := some st.now, attempts := m.attempts + 1 } : Message)
        ∈ (nack st mid rq).2.messages) ∧
    (∀ m ∈ st.messages, m.id ≠ mid → m ∈ (nack st mid rq).2.messages) := by
  refine ⟨rfl, rfl, ?_, ?_, ?_⟩
  · intro h
    have h1 : st.messages.map (fun m =>
        if m.id == mid then
          { m with nacked_at := some st.now, attempts := m.attempts + 1 }
        else m) = st.messages := by
      have h2 : ∀ m ∈ st.messages, (if m.id == mid then
          ({ m with nacked_at := some st.now, attempts := m.attempts + 1 } : Message)
          else m) = m := by
        intro m hm
        simp [beq_iff_eq, h m hm]
      calc st.messages.map _ = st.messages.map id := List.map_congr_left h2
        _ = st.messages := List.map_id _
    show ({ st with messages := _ } : BrokerState) = st
    rw [h1]
  · intro m hm hid
    refine List.mem_map.mpr ⟨m, hm, ?_⟩
    simp [beq_iff_eq, hid]
  · intro m hm hid
    refine List.mem_map.mpr ⟨m, hm, ?_⟩
    simp [beq_iff_eq, hid]

/-- Claim C10 witness: nacking the absent id `zzz` in `stN` leaves the
state unchanged, and nacking `m1` (with `requeue = false`) yields the
record with `nacked_at` set and `attempts` incremented. -/
theorem nack_returns_true_and_updates_witness :
    ((nack stN "zzz" true).2 = stN) ∧
    (({ mN with nacked_at := some stN.now, attempts := mN.attempts + 1 } : Message)
      ∈ (nack stN "m1" false).2.messages) :=
  ⟨(nack_returns_true_and_updates stN "zzz" true false).2.2.1 (by decide),
   (nack_returns_true_and_updates stN "m1" false true).2.2.2.1 mN (by decide) rfl⟩

end MessageQueue

namespace MessageQueue

/-- Helper: `declare_queue` only ever appends rows, so membership in the
queues table is preserved. -/
theorem mem_queues_declare_queue {st : BrokerState} {q : Queue}
    (hq : q ∈ st.queues) (n v : String) (d e ad : Bool) (a : String) :
    q ∈ (declare_queue st n v d e ad a).2.queues := by
  cases h : st.queues.find? (queueMatch n v) with
  | some r => simpa [declare_queue, h] using hq
  | none =>
      simp only [declare_queue, h]
      exact List.mem_append_left _ hq

/-- Helper: after `declare_queue st dn ...`, some row named `dn` is
present (either the pre-existing row the lookup found or the inserted
one). -/
theorem declare_queue_creates {st : BrokerState} (dn v : String)
    (d e ad : Bool) (a : String) :
    ∃ r ∈ (declare_queue st dn v d e ad a).2.queues, r.name = dn := by
  cases h : st.queues.find? (queueMatch dn v) with
  | some r =>
      refine ⟨r, by simpa [declare_queue, h] using List.mem_of_find?_eq_some h, ?_⟩
      have := List.find?_some h
      simp only [queueMatch, Bool.and_eq_true, beq_iff_eq] at this
      exact this.1
  | none =>
      refine ⟨⟨genId st.nextId, dn, v, d, e, ad, a, 0, 0, st.now, none⟩, ?_, rfl⟩
      simp only [declare_queue, h]
      exact List.mem_append_right _ (by simp)

/-- Claim C9 counterexample: `stD` has no queue named `dlq`, yet
`dead_letter_queue stD "q" "dlq"` succeeds (returns `True`) instead of
failing with NotFound for the absent DLQ; and on the empty broker,
`dead_letter_queue initState "missing" "dlq"` does return `False` for the
absent source queue but has nonetheless created the queue `dlq`, so the
state is not left unmodified. -/
theorem dead_letter_queue_counterexample :
    ((stD.queues.map (fun q => q.name)).contains "dlq" = false) ∧
    ((dead_letter_queue stD "q" "dlq").1 = true) ∧
    ((dead_letter_queue initState "missing" "dlq").1 = false) ∧
    ((dead_letter_queue initState "missing" "dlq").2.queues.map
        (fun q => q.name) = ["dlq"]) := by
  decide

/-- Claim C9 (amended): `dead_letter_queue` first declares the DLQ, so a
queue named `dlq_name` exists afterwards in every case (it is created
rather than reported NotFound); when the source queue exists the call
returns `True` and rewrites that queue's arguments to the
`x-dead-letter-queue` map naming the DLQ. -/
theorem dead_letter_queue_creates_and_records (st : BrokerState)
    (qn dn : String) :
    (∃ r ∈ (dead_letter_queue st qn dn).2.queues, r.name = dn) ∧
    ((∃ q ∈ st.queues, q.name = qn) →
      ((dead_letter_queue st qn dn).1 = true ∧
       ∃ r ∈ (dead_letter_queue st qn dn).2.queues,
         r.name = qn ∧ r.arguments = dlqArgs dn)) := by
  obtain ⟨rD, hrD, hrDn⟩ :=
    @declare_queue_creates st dn "/" true false false emptyArgs
  constructor
  · cases hf : (declare_queue st dn "/" true false false emptyArgs).2.queues.find?
        (fun q => q.name == qn) with
    | none =>
        exact ⟨rD, by simpa [dead_letter_queue, hf] using hrD, hrDn⟩
    | some q0 =>
        refine ⟨if rD.id == q0.id then { rD with arguments := dlqArgs dn } else rD,
          ?_, ?_⟩
        · simp only [dead_letter_queue, hf]
          exact List.mem_map.mpr ⟨rD, hrD, rfl⟩
        · cases h : rD.id == q0.id <;> simp [h, hrDn]
  · rintro ⟨q, hq, hqn⟩
    have hq1 : q ∈ (declare_queue st dn "/" true false false emptyArgs).2.queues :=
      mem_queues_declare_queue hq dn "/" true false false emptyArgs
    have hsome : ((declare_queue st dn "/" true false false emptyArgs).2.queues.find?
        (fun q => q.name == qn)).isSome := by
      rw [List.find?_isSome]
      exact ⟨q, hq1, by simp [hqn]⟩
    cases hf : (declare_queue st dn "/" true false false emptyArgs).2.queues.find?
        (fun q => q.name == qn) with
    | none => rw [hf] at hsome; simp at hsome
    | some q0 =>
        have hq0mem := List.mem_of_find?_eq_some hf
        have hq0name : q0.name = qn := by
          have := List.find?_some hf
          simpa [beq_iff_eq] using this
        constructor
        · simp [dead_letter_queue, hf]
        · refine ⟨{ q0 with arguments := dlqArgs dn }, ?_, hq0name, rfl⟩
          simp only [dead_letter_queue, hf]
          refine List.mem_map.mpr ⟨q0, hq0mem, ?_⟩
          simp

/-- Claim C9 witness: on `stD` (which holds a queue named `q`),
configuring `dlq` as its dead-letter queue returns `True`. -/
theorem dead_letter_queue_creates_and_records_witness :
    (dead_letter_queue stD "q" "dlq").1 = true :=
  ((dead_letter_queue_creates_and_records stD "q" "dlq").2
    ⟨⟨"Q", "q", "/", true, false, false, emptyArgs, 0, 0, 0, none⟩,
      by decide, rfl⟩).1

end MessageQueue

namespace MessageQueue

/-- The strengthened state invariant behind claim C6: every stored queue
row keeps the `message_count` of 0 it was inserted with (no operation ever
updates that column) and carries a generated, hence non-empty, id; and
every stored message carries the empty `queue_id` that `publish`
hard-codes. -/
def Inv (st : BrokerState) : Prop :=
  (∀ q ∈ st.queues, q.message_count = 0 ∧ q.id ≠ "") ∧
  (∀ m ∈ st.messages, m.queue_id = "")

theorem genId_ne_empty (n : Nat) : genId n ≠ "" := by
  intro h
  have h1 : (genId n).length = 0 := by rw [h]; rfl
  rw [genId, String.length_append] at h1
  have h3 : "id-".length = 3 := rfl
  omega

theorem inv_initState : Inv initState := by
  constructor <;> intro x hx <;> simp [initState] at hx

theorem inv_declare_queue {st : BrokerState} (h : Inv st)
    (n v : String) (d e ad : Bool) (a : String) :
    Inv (declare_queue st n v d e ad a).2 := by
  cases hf : st.queues.find? (queueMatch n v) with
  | some r => simpa [declare_queue, hf] using h
  | none =>
      obtain ⟨hq, hm⟩ := h
      refine ⟨?_, ?_⟩
      · intro q hmem
        simp only [declare_queue, hf, List.mem_append, List.mem_singleton] at hmem
        rcases hmem with hmem | rfl
        · exact hq q hmem
        · exact ⟨rfl, genId_ne_empty st.nextId⟩
      · intro m hmem
        simp only [declare_queue, hf] at hmem
        exact hm m hmem

theorem inv_declare_exchange {st : BrokerState} (h : Inv st)
    (n ty v : String) (d ad : Bool) :
    Inv (declare_exchange st n ty v d ad).2 := by
  obtain ⟨hq, hm⟩ := h
  exact ⟨fun q hmem => hq q hmem, fun m hmem => hm m hmem⟩

theorem inv_bind_queue {st : BrokerState} (h : Inv st)
    (qn en rk v : String) :
    Inv (bind_queue st qn en rk v).2 := by
  obtain ⟨hq, hm⟩ := h
  cases hf : st.queues.find? (queueMatch qn v) with
  | none => simpa [bind_queue, hf] using ⟨hq, hm⟩
  | some q =>
      cases hg : st.exchanges.find? (exchangeMatch en v) with
      | none => simpa [bind_queue, hf, hg] using ⟨hq, hm⟩
      | some e =>
          refine ⟨?_, ?_⟩
          · intro q' hmem
            simp only [bind_queue, hf, hg] at hmem
            exact hq q' hmem
          · intro m hmem
            simp only [bind_queue, hf, hg] at hmem
            exact hm m hmem

theorem inv_publish {st : BrokerState} (h : Inv st)
    (ex rk b hd : String) (p : Int) (ct v : String) :
    Inv (publish st ex rk b hd p ct v).2 := by
  obtain ⟨hq, hm⟩ := h
  cases hf : st.exchanges.find? (exchangeMatch ex v) with
  | none => simpa [publish, hf] using ⟨hq, hm⟩
  | some e =>
      refine ⟨?_, ?_⟩
      · intro q hmem
        simp only [publish, hf] at hmem
        exact hq q hmem
      · intro m hmem
        simp only [publish, hf, List.mem_append, List.mem_singleton] at hmem
        rcases hmem with hmem | rfl
        · exact hm m hmem
        · rfl

theorem inv_consume {st : BrokerState} (h : Inv st)
    (qn : String) (n : Nat) (a : Bool) :
    Inv (consume st qn n a).2 := by
  obtain ⟨hq, hm⟩ := h
  cases hf : st.queues.find? (fun q => q.name == qn) with
  | none => simpa [consume, hf] using ⟨hq, hm⟩
  | some q =>
      refine ⟨?_, ?_⟩
      · intro q' hmem
        simp only [consume, hf] at hmem
        exact hq q' hmem
      · intro m hmem
        simp only [consume, hf] at hmem
        cases a with
        | false =>
            rw [if_neg (by simp)] at hmem
            exact hm m hmem
        | true =>
            rw [if_pos rfl] at hmem
            rcases List.mem_map.mp hmem with ⟨m0, hm0, rfl⟩
            have h5 := hm m0 hm0
            by_cases hc : ((st.messages.filter
                (fun m => m.queue_id == q.id && isReady m)).take n).any
                (fun r => r.id == m0.id) = true
            · rw [if_pos hc]
              exact h5
            · rw [if_neg hc]
              exact h5

theorem inv_nack {st : BrokerState} (h : Inv st)
    (mid : String) (rq : Bool) :
    Inv (nack st mid rq).2 := by
  obtain ⟨hq, hm⟩ := h
  refine ⟨fun q hmem => hq q hmem, ?_⟩
  intro m hmem
  rcases List.mem_map.mp hmem with ⟨m0, hm0, rfl⟩
  have := hm m0 hm0
  by_cases hc : m0.id == mid <;> simp [hc, this]

theorem inv_purge_queue {st : BrokerState} (h : Inv st) (qn : String) :
    Inv (purge_queue st qn).2 := by
  obtain ⟨hq, hm⟩ := h
  cases hf : st.queues.find? (fun q => q.name == qn) with
  | none => simpa [purge_queue, hf] using ⟨hq, hm⟩
  | some q =>
      refine ⟨?_, ?_⟩
      · intro q' hmem
        simp only [purge_queue, hf] at hmem
        exact hq q' hmem
      · intro m hmem
        simp only [purge_queue, hf] at hmem
        exact hm m (List.mem_filter.mp hmem).1

theorem inv_dead_letter_queue {st : BrokerState} (h : Inv st)
    (qn dn : String) :
    Inv (dead_letter_queue st qn dn).2 := by
  have h1 := inv_declare_queue h dn "/" true false false emptyArgs
  obtain ⟨hq, hm⟩ := h1
  cases hf : (declare_queue st dn "/" true false false emptyArgs).2.queues.find?
      (fun q => q.name == qn) with
  | none => simpa [dead_letter_queue, hf] using ⟨hq, hm⟩
  | some q0 =>
      refine ⟨?_, ?_⟩
      · intro q' hmem
        simp only [dead_letter_queue, hf] at hmem
        rcases List.mem_map.mp hmem with ⟨r, hr, rfl⟩
        have := hq r hr
        by_cases hc : r.id == q0.id <;> simp [hc, this.1, this.2]
      · intro m hmem
        simp only [dead_letter_queue, hf] at hmem
        exact hm m hmem

/-- The broker states reachable from a fresh database through the public
operations of `MessageBroker`. -/
inductive Reach : BrokerState → Prop where
  | init : Reach initState
  | step_declare_queue {st} (n v : String) (d e ad : Bool) (a : String) :
      Reach st → Reach (declare_queue st n v d e ad a).2
  | step_declare_exchange {st} (n ty v : String) (d ad : Bool) :
      Reach st → Reach (declare_exchange st n ty v d ad).2
  | step_bind_queue {st} (qn en rk v : String) :
      Reach st → Reach (bind_queue st qn en rk v).2
  | step_publish {st} (ex rk b hd : String) (p : Int) (ct v : String) :
      Reach st → Reach (publish st ex rk b hd p ct v).2
  | step_consume {st} (qn : String) (n : Nat) (a : Bool) :
      Reach st → Reach (consume st qn n a).2
  | step_nack {st} (mid : String) (rq : Bool) :
      Reach st → Reach (nack st mid rq).2
  | step_purge_queue {st} (qn : String) :
      Reach st → Reach (purge_queue st qn).2
  | step_dead_letter_queue {st} (qn dn : String) :
      Reach st → Reach (dead_letter_queue st qn dn).2

theorem reach_inv {st : BrokerState} (h : Reach st) : Inv st := by
  induction h with
  | init => exact inv_initState
  | step_declare_queue n v d e ad a _ ih => exact inv_declare_queue ih n v d e ad a
  | step_declare_exchange n ty v d ad _ ih => exact inv_declare_exchange ih n ty v d ad
  | step_bind_queue qn en rk v _ ih => exact inv_bind_queue ih qn en rk v
  | step_publish ex rk b hd p ct v _ ih => exact inv_publish ih ex rk b hd p ct v
  | step_consume qn n a _ ih => exact inv_consume ih qn n a
  | step_nack mid rq _ ih => exact inv_nack ih mid rq
  | step_purge_queue qn _ ih => exact inv_purge_queue ih qn
  | step_dead_letter_queue qn dn _ ih => exact inv_dead_letter_queue ih qn dn

/-- Claim C6: in every broker state reachable through the public
operations, each queue's `message_count` equals the number of stored
messages that belong to that queue and are not yet finalized (no ack/nack
timestamp).  The equality is degenerate: no operation ever updates the
`message_count` column (it stays 0) and `publish` files every message
under the empty `queue_id`, which is never a queue's id, so both sides are
always 0. -/
theorem message_count_matches_buffer (st : BrokerState) (h : Reach st)
    (q : Queue) (hq : q ∈ st.queues) :
    q.message_count =
      ((st.messages.filter (fun m => m.queue_id == q.id && isReady m)).length : Int) := by
  obtain ⟨hqs, hms⟩ := reach_inv h
  have h1 := (hqs q hq).1
  have h2 : st.messages.filter (fun m => m.queue_id == q.id && isReady m) = [] := by
    rw [List.filter_eq_nil_iff]
    intro m hm
    have h3 := hms m hm
    have h4 := (hqs q hq).2
    simp [h3, beq_iff_eq]
    intro h5
    exact absurd h5.symm h4
  rw [h2, h1]
  rfl

/-- Claim C6 witness: in the reachable state `pubA.2` (exchange `ex`, two
bound queues, one publish), the queue `q1`'s `message_count` of 0 equals
the (empty) count of its unfinalized buffer messages. -/
theorem message_count_matches_buffer_witness :
    (⟨genId 1, "q1", "/", true, false, false, emptyArgs,
        0, 0, 0, none⟩ : Queue).message_count =
      ((pubA.2.messages.filter (fun m =>
        m.queue_id == (⟨genId 1, "q1", "/", true, false, false, emptyArgs,
          0, 0, 0, none⟩ : Queue).id && isReady m)).length : Int) :=
  message_count_matches_buffer pubA.2
    (Reach.step_publish "ex" "rk" "body" emptyArgs 0 "text/plain" "/"
      (Reach.step_bind_queue "q2" "ex" "" "/"
        (Reach.step_bind_queue "q1" "ex" "" "/"
          (Reach.step_declare_queue "q2" "/" true false false emptyArgs
            (Reach.step_declare_queue "q1" "/" true false false emptyArgs
              (Reach.step_declare_exchange "ex" "fanout" "/" true false
                Reach.init))))))
    ⟨genId 1, "q1", "/", true, false, false, emptyArgs, 0, 0, 0, none⟩
    (by decide)

end MessageQueue
